import Mathlib

/-!
Verification of the tempo-news-loader pipeline.

Shallow embedding of the repository sources (tempo_news/models.py,
markdown_writer.py, fetcher.py, rag_service.py, rag_integration.py,
cli.py) in Lean 4. Python strings are modelled as `List Char`
(a Python `str` is a sequence of Unicode code points); file-system and
network effects are modelled explicitly: writes are recorded in result
structures and HTTP / file-read outcomes are supplied as oracle values
(`Except` / `Option` parameters). Unicode classifications used by the
Python standard library (regex `\w`, `\s`, `str.lower`, NFD
decomposition, the Mn category) are modelled faithfully on the code
points this repository and this development manipulate: the full ASCII
range, the Latin-1 block, the punctuation characters of the
substitution table in `_normalize_text`, and combining marks in the
U+0300 block; code points outside the modelled set are treated as
classification-inert, which is recorded at each definition.
-/

namespace TempoNews

/-! ## Character-level helpers -/

/-- Python `\s` and `str.strip()` whitespace, modelled on the code
points below U+0100 plus the common Unicode space code points
(U+1680, U+2000-U+200A, U+2028, U+2029, U+202F, U+205F, U+3000). -/
def isPySpace (c : Char) : Bool :=
  let n := c.toNat
  (9 ≤ n ∧ n ≤ 13) || n = 32 || (28 ≤ n ∧ n ≤ 31) || n = 0x85 || n = 0xA0 ||
  n = 0x1680 || (0x2000 ≤ n ∧ n ≤ 0x200A) || n = 0x2028 || n = 0x2029 ||
  n = 0x202F || n = 0x205F || n = 0x3000

/-- ASCII uppercase letter. -/
def isAsciiUpper (c : Char) : Bool :=
  65 ≤ c.toNat && c.toNat ≤ 90

/-- ASCII letter or digit. -/
def isAsciiAlnum (c : Char) : Bool :=
  let n := c.toNat
  (65 ≤ n && n ≤ 90) || (97 ≤ n && n ≤ 122) || (48 ≤ n && n ≤ 57)

/-- Letter of the Latin-1 supplement block (U+00C0-U+00FF without the
multiplication and division signs, plus U+00AA, U+00B5, U+00BA). -/
def isLatin1Letter (c : Char) : Bool :=
  let n := c.toNat
  (0xC0 ≤ n && n ≤ 0xFF && n ≠ 0xD7 && n ≠ 0xF7) || n = 0xAA || n = 0xB5 || n = 0xBA

/-- Python regex `\w` (Unicode word character: letter, digit or
underscore), modelled on code points below U+0100. -/
def isWordChar (c : Char) : Bool :=
  isAsciiAlnum c || c.toNat = 95 || isLatin1Letter c

/-- Python `str.lower`, modelled on code points below U+0100
(ASCII A-Z and the Latin-1 uppercase range map down by 32; every other
modelled code point is already caseless or lowercase). -/
def pyLower (c : Char) : Char :=
  if 65 ≤ c.toNat ∧ c.toNat ≤ 90 then Char.ofNat (c.toNat + 32)
  else if 0xC0 ≤ c.toNat ∧ c.toNat ≤ 0xDE ∧ c.toNat ≠ 0xD7 then Char.ofNat (c.toNat + 32)
  else c

/-- Python `str.encode('ascii', errors='replace')`: every code point
above U+007F becomes a question mark. -/
def asciiFallback (c : Char) : Char :=
  if c.toNat ≤ 127 then c else '?'

/-- Python `str.strip()`: drop whitespace from both ends. -/
def pyStrip (cs : List Char) : List Char :=
  ((cs.dropWhile isPySpace).reverse.dropWhile isPySpace).reverse

/-- Replace every occurrence of the single character `k` by the string
`v`; one `str.replace(k, v)` call for a one-character pattern. -/
def replaceAll (cs : List Char) (k : Char) (v : List Char) : List Char :=
  cs.flatMap fun c => if c = k then v else [c]

/-! ## Dates (`datetime` values reaching the writer) -/

/-- Timestamp with the fields the writer formats; microseconds and
time zones never reach the formatting calls used by the writer and are
left out. -/
structure DateTime where
  year : Nat
  month : Nat
  day : Nat
  hour : Nat
  minute : Nat
  second : Nat
deriving DecidableEq, Repr

/-- Decimal digits of a number, most significant first. -/
def natChars (n : Nat) : List Char := Nat.toDigits 10 n

/-- Zero-pad to two digits. -/
def pad2 (n : Nat) : List Char :=
  if n < 10 then '0' :: natChars n else natChars n

/-- Zero-pad to four digits (years in this pipeline are four-digit). -/
def pad4 (n : Nat) : List Char :=
  if n < 10 then '0' :: '0' :: '0' :: natChars n
  else if n < 100 then '0' :: '0' :: natChars n
  else if n < 1000 then '0' :: natChars n
  else natChars n

/-- Python `datetime.isoformat()` without microseconds. -/
def isoFormat (d : DateTime) : List Char :=
  pad4 d.year ++ ['-'] ++ pad2 d.month ++ ['-'] ++ pad2 d.day ++ ['T'] ++
  pad2 d.hour ++ [':'] ++ pad2 d.minute ++ [':'] ++ pad2 d.second

/-- Python `strftime('%Y-%m-%d')`. -/
def dateOnlyFormat (d : DateTime) : List Char :=
  pad4 d.year ++ ['-'] ++ pad2 d.month ++ ['-'] ++ pad2 d.day

/-- English month names used by `strftime('%B')`. -/
def monthName (m : Nat) : List Char :=
  match m with
  | 1 => "January".toList
  | 2 => "February".toList
  | 3 => "March".toList
  | 4 => "April".toList
  | 5 => "May".toList
  | 6 => "June".toList
  | 7 => "July".toList
  | 8 => "August".toList
  | 9 => "September".toList
  | 10 => "October".toList
  | 11 => "November".toList
  | 12 => "December".toList
  | _ => []

/-- Python `strftime('%B %d, %Y')`. -/
def longDateFormat (d : DateTime) : List Char :=
  monthName d.month ++ [' '] ++ pad2 d.day ++ [','] ++ [' '] ++ pad4 d.year

/-! ## models.py -/

/-- Article model (models.py, class Article). The `url` field holds
the string form of the validated pydantic HttpUrl (the writer and the
ledger only ever use `str(article.url)`); pydantic URL validation
itself is an external library and is not modelled. -/
structure Article where
  title : List Char
  url : List Char
  author : Option (List Char) := none
  published : Option DateTime := none
  summary : Option (List Char) := none
  content : Option (List Char) := none
  categories : List (List Char) := []
  slug : Option (List Char) := none
deriving DecidableEq, Repr

/-- Pydantic validator `clean_title` (models.py lines 21-25):
`v.strip().replace('\n', ' ').replace('\r', ' ')`. -/
def cleanTitle (t : List Char) : List Char :=
  (replaceAll (replaceAll (pyStrip t) '\n' [' ']) '\r' [' '])

/-- Separator class of the regex `[-\s]` used in `generate_slug`. -/
def isSlugSep (c : Char) : Bool :=
  c = '-' || isPySpace c

/-- Worker for `re.sub(r'[-\s]+', '-', slug)`: a maximal run of
separators becomes a single hyphen; `prevSep` records whether the
previous character belonged to a run. -/
def collapseSeps : Bool → List Char → List Char
  | _, [] => []
  | prevSep, c :: rest =>
    if isSlugSep c then
      if prevSep then collapseSeps true rest
      else '-' :: collapseSeps true rest
    else c :: collapseSeps false rest

/-- Python `str.strip('-')`: drop hyphens from both ends. -/
def stripHyphens (cs : List Char) : List Char :=
  ((cs.dropWhile (· = '-')).reverse.dropWhile (· = '-')).reverse

/-- Slug derivation from the title (models.py lines 33-37):
lowercase, drop characters outside `[\w\s-]`, collapse separator runs
to single hyphens, strip outer hyphens, truncate to 100 characters. -/
def slugFromTitle (title : List Char) : List Char :=
  let s1 := title.map pyLower
  let s2 := s1.filter fun c => isWordChar c || isPySpace c || c = '-'
  let s3 := collapseSeps false s2
  let s4 := stripHyphens s3
  s4.take 100

/-- `Article.generate_slug` (models.py lines 27-37). `if self.slug:`
is Python truthiness: the preset slug is used only when it is a
non-empty string. -/
def generateSlug (a : Article) : List Char :=
  match a.slug with
  | some s => if s.isEmpty then slugFromTitle a.title else s
  | none => slugFromTitle a.title

/-- `Article.get_file_path` (models.py lines 39-42): the output path
is the base directory joined with `slug + ".md"`. -/
def getFilePath (baseDir : List Char) (a : Article) : List Char :=
  baseDir ++ "/".toList ++ generateSlug a ++ ".md".toList

/-! ## markdown_writer.py: text normalisation -/

/-- Canonical (NFD) decompositions, modelled on a representative set
of Latin-1 accented letters (base letter followed by a combining mark
of the U+0300 block); all other code points handled by this pipeline
are decomposition-inert. -/
def nfdTable : List (Char × List Char) :=
  [('\u00C0', ['A', '\u0300']), ('\u00C1', ['A', '\u0301']),
   ('\u00C8', ['E', '\u0300']), ('\u00C9', ['E', '\u0301']),
   ('\u00E0', ['a', '\u0300']), ('\u00E1', ['a', '\u0301']),
   ('\u00E7', ['c', '\u0327']), ('\u00E8', ['e', '\u0300']),
   ('\u00E9', ['e', '\u0301']), ('\u00EA', ['e', '\u0302']),
   ('\u00F1', ['n', '\u0303']), ('\u00F6', ['o', '\u0308']),
   ('\u00FC', ['u', '\u0308'])]

/-- Decomposition of one character under `unicodedata.normalize('NFD', -)`. -/
def nfdChar (c : Char) : List Char :=
  match nfdTable.find? (fun p => p.fst = c) with
  | some p => p.snd
  | none => [c]

/-- Unicode category Mn (nonspacing combining mark), modelled on the
U+0300 combining-diacritics block produced by `nfdTable`. -/
def isMn (c : Char) : Bool :=
  0x300 ≤ c.toNat && c.toNat ≤ 0x36F

/-- Punctuation substitution table of `_normalize_text`
(markdown_writer.py lines 151-163), in source order. -/
def punctTable : List (Char × List Char) :=
  [('\u2013', ['-']), ('\u2014', ['-', '-']),
   ('\u2018', ['\'']), ('\u2019', ['\'']),
   ('\u201C', ['"']), ('\u201D', ['"']),
   ('\u2026', ['.', '.', '.']), ('\u00A0', [' ']),
   ('\u2022', ['*']), ('\u00AB', ['<', '<']), ('\u00BB', ['>', '>'])]

/-- Sequential `str.replace` passes over the substitution table. -/
def applySubstitutions (cs : List Char) : List Char :=
  punctTable.foldl (fun acc p => replaceAll acc p.fst p.snd) cs

/-- `MarkdownWriter._normalize_text` (markdown_writer.py lines
140-171): NFD-decompose, drop Mn marks, substitute punctuation, then
replace every remaining non-ASCII character with a question mark. -/
def normalizeText (cs : List Char) : List Char :=
  if cs.isEmpty then []
  else
    let decomposed := cs.flatMap nfdChar
    let stripped := decomposed.filter fun c => !(isMn c)
    let substituted := applySubstitutions stripped
    substituted.map asciiFallback

/-- `MarkdownWriter._escape_yaml` (markdown_writer.py lines 173-177):
`text.replace('"', '\\"').replace('\n', ' ').replace('\r', ' ')`. -/
def escapeYaml (cs : List Char) : List Char :=
  if cs.isEmpty then []
  else replaceAll (replaceAll (replaceAll cs '"' ['\\', '"']) '\n' [' ']) '\r' [' ']

/-- Python `str.split('\n')`. -/
def splitOnNewline : List Char → List (List Char)
  | [] => [[]]
  | c :: rest =>
    if c = '\n' then [] :: splitOnNewline rest
    else
      match splitOnNewline rest with
      | s :: ss => (c :: s) :: ss
      | [] => [[c]]

/-- `MarkdownWriter._clean_content` (markdown_writer.py lines
179-193): strip each line, drop blank lines, join with blank lines. -/
def cleanContent (cs : List Char) : List Char :=
  if cs.isEmpty then []
  else
    let cleanedLines := ((splitOnNewline cs).map pyStrip).filter fun l => !l.isEmpty
    List.intercalate ['\n', '\n'] cleanedLines

/-! ## markdown_writer.py: document generation -/

/-- Body line emitted when the article has no full content
(markdown_writer.py line 136). -/
def placeholderLine : List Char :=
  "*Full article content not available. Please visit the source URL above.*".toList

/-- Heading of the full-content section (markdown_writer.py line 132). -/
def contentHeading : List Char :=
  "## Article Content".toList

/-- Frontmatter block of `_generate_markdown` (markdown_writer.py
lines 75-94): delimiters, title, url, optional author, optional
published and date, optional category list, slug, closing delimiter
and the blank line after it. -/
def frontmatterLines (a : Article) : List (List Char) :=
  ["---".toList,
   "title: \"".toList ++ escapeYaml (normalizeText a.title) ++ "\"".toList,
   "url: ".toList ++ a.url] ++
  (match a.author with
   | some au => ["author: \"".toList ++ escapeYaml (normalizeText au) ++ "\"".toList]
   | none => []) ++
  (match a.published with
   | some d => ["published: ".toList ++ isoFormat d, "date: ".toList ++ dateOnlyFormat d]
   | none => []) ++
  (if a.categories.isEmpty then []
   else "categories:".toList ::
     a.categories.map fun cat =>
       "  - \"".toList ++ escapeYaml (normalizeText cat) ++ "\"".toList) ++
  ["slug: ".toList ++ generateSlug a, "---".toList, []]

/-- Title block (markdown_writer.py lines 96-98). -/
def titleLines (a : Article) : List (List Char) :=
  ["# ".toList ++ normalizeText a.title, []]

/-- By / Published metadata line (markdown_writer.py lines 100-109). -/
def metaLines (a : Article) : List (List Char) :=
  let metaParts :=
    (match a.author with
     | some au => ["**By:** ".toList ++ normalizeText au]
     | none => []) ++
    (match a.published with
     | some d => ["**Published:** ".toList ++ longDateFormat d]
     | none => [])
  if a.author.isSome || a.published.isSome then
    [List.intercalate " | ".toList metaParts, []]
  else []

/-- Categories line (markdown_writer.py lines 111-115). -/
def categoryLines (a : Article) : List (List Char) :=
  if a.categories.isEmpty then []
  else
    let tags := a.categories.map fun cat => "`".toList ++ normalizeText cat ++ "`".toList
    ["**Categories:** ".toList ++ List.intercalate [' '] tags, []]

/-- Source link and horizontal rule (markdown_writer.py lines 117-121). -/
def sourceLines (a : Article) : List (List Char) :=
  ["**Source:** [".toList ++ a.url ++ "](".toList ++ a.url ++ ")".toList,
   [], "---".toList, []]

/-- Summary section (markdown_writer.py lines 123-128). -/
def summaryLines (a : Article) : List (List Char) :=
  match a.summary with
  | some s => ["## Summary".toList, [], normalizeText s, []]
  | none => []

/-- Content section or the placeholder (markdown_writer.py lines
130-136). -/
def contentLines (a : Article) : List (List Char) :=
  match a.content with
  | some c => [contentHeading, [], cleanContent (normalizeText c)]
  | none => [placeholderLine]

/-- `MarkdownWriter._generate_markdown` (markdown_writer.py lines
71-138), as the list of lines later joined with newlines; each block
mirrors one `lines.append` group of the source. -/
def generateMarkdownLines (a : Article) : List (List Char) :=
  frontmatterLines a ++ titleLines a ++ metaLines a ++ categoryLines a ++
    sourceLines a ++ summaryLines a ++ contentLines a

/-- `_generate_markdown` output: the lines joined with newlines. -/
def generateMarkdown (a : Article) : List Char :=
  List.intercalate ['\n'] (generateMarkdownLines a)

/-- Bytes actually persisted by `write_article` (markdown_writer.py
line 65): the file is opened with `encoding='ascii', errors='replace'`,
so every non-ASCII character of the document is written as `?`. -/
def writtenFileContent (a : Article) : List Char :=
  (generateMarkdown a).map asciiFallback

/-! ## markdown_writer.py: the deduplicated batch write -/

/-- `MarkdownWriter.is_article_processed` (markdown_writer.py lines
52-54): membership of `str(article.url)` in the loaded ledger set. -/
def isArticleProcessed (existingUrls : List (List Char)) (a : Article) : Bool :=
  existingUrls.contains a.url

/-- Python `set.union` of the ledger set with the new urls
(`self.existing_urls.union(new_urls)`), represented as a duplicate-free
extension of the first list; only membership of the result is ever
relied on (a Python set has no specified order). -/
def setUnion (xs ys : List (List Char)) : List (List Char) :=
  xs ++ ys.filter fun y => !(xs.contains y)

/-- Accumulated effects of the `for article in articles` loop of
`write_articles` (markdown_writer.py lines 201-212). -/
structure BatchAcc where
  written : List (List Char)
  files : List ((List Char) × (List Char))
  newUrls : List (List Char)
  skipped : Nat
deriving DecidableEq, Repr

/-- The loop of `write_articles`: an already-ledgered url is counted
as skipped and nothing is written; otherwise the file is written
(path and persisted bytes recorded in `files`), the path appended to
the returned list and the url staged. File-system writes are modelled
as succeeding; an OS-level write error would fall into the
`except` arm of the source and is an environment failure outside this
model. -/
def processArticles (dir : List Char) (existingUrls : List (List Char)) :
    List Article → BatchAcc
  | [] => ⟨[], [], [], 0⟩
  | a :: rest =>
    let r := processArticles dir existingUrls rest
    if isArticleProcessed existingUrls a then
      ⟨r.written, r.files, r.newUrls, r.skipped + 1⟩
    else
      let p := getFilePath dir a
      ⟨p :: r.written, (p, writtenFileContent a) :: r.files,
       a.url :: r.newUrls, r.skipped⟩

/-- Outcome of one `write_articles` call (markdown_writer.py lines
195-222): the returned paths, the files written, the staged urls, the
skip count, and the ledger contents persisted by `_save_metadata`
(`none` when the metadata file is not rewritten). -/
structure BatchOutcome where
  written : List (List Char)
  files : List ((List Char) × (List Char))
  newUrls : List (List Char)
  skipped : Nat
  savedUrls : Option (List (List Char))
deriving DecidableEq, Repr

/-- `MarkdownWriter.write_articles`: run the loop, then persist the
union ledger only when at least one new url was staged
(`if new_urls:` on line 215). -/
def writeArticles (dir : List Char) (existingUrls : List (List Char))
    (articles : List Article) : BatchOutcome :=
  let r := processArticles dir existingUrls articles
  { written := r.written, files := r.files, newUrls := r.newUrls,
    skipped := r.skipped,
    savedUrls :=
      if r.newUrls.isEmpty then none
      else some (setUnion existingUrls r.newUrls) }

/-! ## fetcher.py -/

/-- FetchConfig (models.py lines 45-56); the float-valued
`rate_limit_delay` only feeds `time.sleep` and is left out. -/
structure FetchConfig where
  rssUrl : List Char
  outputDir : List Char
  maxArticles : Nat
  userAgent : List Char
  fetchFullContent : Bool
  enableRag : Bool
  ragAppName : List Char
deriving DecidableEq, Repr

/-- One feedparser entry, with the attributes `_parse_rss_entry`
probes; a `none` models an absent attribute (`hasattr` false /
`getattr` default). `publishedParsed` carries the structured timestamp
already converted from the feedparser time tuple. -/
structure FeedEntry where
  title : Option (List Char)
  link : Option (List Char)
  publishedParsed : Option DateTime
  published : Option (List Char)
  tags : List (List Char)
  author : Option (List Char)
  summary : Option (List Char)

/-- Parsed feed as returned by `feedparser.parse`. -/
structure Feed where
  entries : List FeedEntry
  bozo : Bool

/-- `RSSFetcher._parse_rss_entry` (fetcher.py lines 51-92). The
freeform date parse (`dateutil.parser.parse`) and the HTML stripping
of the summary (BeautifulSoup `get_text().strip()`) are external
libraries supplied as oracle functions; a missing `title` or `link`
attribute raises inside the `try` and yields `None`. -/
def parseRssEntry (parseDate : List Char → Option DateTime)
    (stripHtml : List Char → List Char) (e : FeedEntry) : Option Article :=
  match e.title, e.link with
  | some t, some l =>
    some { title := cleanTitle t
           url := l
           author := e.author
           published :=
             match e.publishedParsed with
             | some d => some d
             | none => e.published.bind parseDate
           summary := e.summary.map stripHtml
           content := none
           categories := e.tags
           slug := none }
  | _, _ => none

/-- Entry loop of `fetch_rss_feed` (fetcher.py lines 39-43): parse
each taken entry, appending only the successfully parsed ones. -/
def collectEntries (parseDate : List Char → Option DateTime)
    (stripHtml : List Char → List Char) : List FeedEntry → List Article
  | [] => []
  | e :: rest =>
    match parseRssEntry parseDate stripHtml e with
    | some a => a :: collectEntries parseDate stripHtml rest
    | none => collectEntries parseDate stripHtml rest

/-- `RSSFetcher.fetch_rss_feed` (fetcher.py lines 27-49): the
fetch-and-parse outcome is an oracle; on any raised error the except
arm returns the empty list, otherwise at most `max_articles` entries
are taken in feed order and parsed. -/
def fetchRssFeed (cfg : FetchConfig) (parseDate : List Char → Option DateTime)
    (stripHtml : List Char → List Char)
    (feedResult : Except (List Char) Feed) : List Article :=
  match feedResult with
  | .error _ => []
  | .ok feed =>
    collectEntries parseDate stripHtml (feed.entries.take cfg.maxArticles)

/-- Data extracted from a secondary page fetch by the newspaper
library (`.text`, `.authors`, `.publish_date`); `text` is a Python
string whose truthiness gates the content assignment. -/
structure PageData where
  text : List Char
  authors : List (List Char)
  publishDate : Option DateTime

/-- Python truthiness of an optional string field. -/
def optTruthy (o : Option (List Char)) : Bool :=
  match o with
  | some s => !s.isEmpty
  | none => false

/-- `RSSFetcher.fetch_article_content` (fetcher.py lines 94-125).
The HTTP GET plus newspaper download/parse is an oracle: a raised
error lands in the except arm, which returns the article untouched.
On success the content is set when the extracted text is non-empty,
and author / publish date are filled only when the feed left them
empty. -/
def fetchArticleContent (cfg : FetchConfig) (a : Article)
    (pageResult : Except (List Char) PageData) : Article :=
  if !cfg.fetchFullContent then a
  else
    match pageResult with
    | .error _ => a
    | .ok page =>
      let a1 := if !page.text.isEmpty then { a with content := some page.text } else a
      let a2 :=
        if !optTruthy a1.author && !page.authors.isEmpty then
          { a1 with author := some (List.intercalate ", ".toList page.authors) }
        else a1
      if a2.published.isNone && page.publishDate.isSome then
        { a2 with published := page.publishDate }
      else a2

/-! ## rag_service.py -/

/-- Environment seen by `RAGServiceDetector.detect_rag_service`
(rag_service.py lines 28-91): existence of the SyftBox config and of
the app folder, and the contents of the two marker files at each
1-second poll tick (`none` while a file does not exist). -/
structure DetectEnv where
  configExists : Bool
  appFolderExists : Bool
  portFileAt : Nat → Option (List Char)
  pidFileAt : Nat → Option (List Char)

/-- Polling loop of `detect_rag_service` (rag_service.py lines
61-87): one probe per second while `time.time() - start_time <
max_wait_time`; fuel counts the remaining ticks of the wait window. -/
def detectLoop (port pid : Nat → Option (List Char)) : Nat → Nat → Bool
  | 0, _ => false
  | fuel + 1, t =>
    match port t, pid t with
    | some _, some _ => true
    | _, _ => detectLoop port pid fuel (t + 1)

/-- `RAGServiceDetector.detect_rag_service`: missing config or app
folder reports non-detection at once, otherwise the marker files are
polled for the wait window. Every failure path returns `false`; the
function is total, so no error propagates to the caller. -/
def detectRagService (env : DetectEnv) (maxWaitTime : Nat) : Bool :=
  if !env.configExists then false
  else if !env.appFolderExists then false
  else detectLoop env.portFileAt env.pidFileAt maxWaitTime 0

/-! ## rag_integration.py -/

/-- HTTP requests issued by `setup_rag_connection` and helpers. -/
inductive RagEvent where
  | detectAttempt (ok : Bool)
  | watchedFoldersQuery
  | addFolderRequest
deriving DecidableEq, Repr

/-- Responses of the RAG HTTP endpoints: the watched-folders list
(`none` for a transport failure or non-200 response) and the status
code of the add-folder request (`none` for a transport failure). -/
structure RagNet where
  watchedFolders : Option (List (List Char))
  addFolderStatus : Option Nat

/-- `RAGIntegration.register_articles_folder` (rag_integration.py
lines 48-80): when connected, query the watched folders (a failed or
non-200 query counts as not registered), treat an already-listed
folder as registered without a new request, otherwise issue the
add-folder request and register only on a 200 response. Returns the
`folder_registered` flag and the requests issued. -/
def registerArticlesFolder (connected : Bool) (outputPath : List Char)
    (net : RagNet) : Bool × List RagEvent :=
  if !connected then (false, [])
  else
    let already :=
      match net.watchedFolders with
      | some folders => folders.contains outputPath
      | none => false
    if already then (true, [RagEvent.watchedFoldersQuery])
    else
      match net.addFolderStatus with
      | some code =>
        (code = 200, [RagEvent.watchedFoldersQuery, RagEvent.addFolderRequest])
      | none => (false, [RagEvent.watchedFoldersQuery, RagEvent.addFolderRequest])

/-- Connection state after `setup_rag_connection`, with the requests
issued during setup. -/
structure SetupOutcome where
  connected : Bool
  folderRegistered : Bool
  events : List RagEvent
deriving DecidableEq, Repr

/-- `RAGIntegration.setup_rag_connection` (rag_integration.py lines
25-46): detect with `max_wait_time=30`; on detection mark connected
and try to register the articles folder; otherwise report failure
with no further request. -/
def setupRagConnection (env : DetectEnv) (outputPath : List Char)
    (net : RagNet) : SetupOutcome :=
  if detectRagService env 30 then
    let r := registerArticlesFolder true outputPath net
    { connected := true, folderRegistered := r.fst,
      events := RagEvent.detectAttempt true :: r.snd }
  else
    { connected := false, folderRegistered := false,
      events := [RagEvent.detectAttempt false] }

/-! ## cli.py -/

/-- Workflow steps of the `fetch` command that touch the network or
the disk. -/
inductive RunEvent where
  | ragSetup (ok : Bool)
  | feedFetch
  | articlesWrite (count : Nat)
deriving DecidableEq, Repr

/-- Control flow of `main` (cli.py lines 85-123) as the sequence of
workflow steps performed: RAG setup always runs; a failed setup
returns before any fetch; an empty fetch returns before any write.
The fetched articles are an oracle standing for
`fetcher.fetch_articles()`. -/
def mainRun (ragConnected : Bool) (fetched : List Article) : List RunEvent :=
  [RunEvent.ragSetup ragConnected] ++
  if !ragConnected then []
  else
    [RunEvent.feedFetch] ++
    if fetched.isEmpty then [] else [RunEvent.articlesWrite fetched.length]

/-! ## Concrete fixtures used by witnesses and counterexamples -/

/-- Article with a fresh url, as parsed from a feed entry. -/
def artC : Article :=
  { title := "Hello World".toList, url := "https://t.co/c".toList }

/-- Article whose preset slug is the empty string (Python falsy). -/
def emptySlugArticle : Article :=
  { title := "Hello".toList, url := "https://t.co/x".toList, slug := some [] }

/-- Article with a non-empty preset slug. -/
def presetSlugArticle : Article :=
  { title := "Hello".toList, url := "https://t.co/y".toList,
    slug := some ("preset".toList) }

/-- Configuration with the default values of models.py. -/
def cfgFixture : FetchConfig :=
  { rssUrl := "https://rss.tempo.co/".toList,
    outputDir := "articles".toList,
    maxArticles := 50,
    userAgent := "Tempo News Fetcher 1.0".toList,
    fetchFullContent := true,
    enableRag := true,
    ragAppName := "com.github.openmined.local-rag".toList }

/-- Detection environment in which the marker files never appear. -/
def absentEnv : DetectEnv :=
  { configExists := true, appFolderExists := true,
    portFileAt := fun _ => none, pidFileAt := fun _ => none }

/-- RAG endpoints that answer every request successfully. -/
def quietNet : RagNet :=
  { watchedFolders := some [], addFolderStatus := some 200 }

/-! ## Helper lemmas -/

/-- Unfolding of `Char.ofNat` on code points below the surrogate range. -/
theorem toNat_charOfNat (n : Nat) (h : n < 55296) : (Char.ofNat n).toNat = n := by
  unfold Char.ofNat
  rw [dif_pos (Or.inl h)]
  rfl

/-- List `contains` agrees with membership for url lists. -/
theorem contains_mem (xs : List (List Char)) (u : List Char) :
    xs.contains u = true ↔ u ∈ xs := by
  simp [List.contains, List.elem_iff]

/-- Membership in the modelled Python set union. -/
theorem mem_setUnion (xs ys : List (List Char)) (u : List Char) :
    u ∈ setUnion xs ys ↔ u ∈ xs ∨ u ∈ ys := by
  simp only [setUnion, List.mem_append, List.mem_filter, Bool.not_eq_true']
  by_cases h : u ∈ xs
  · simp [h]
  · have hc : xs.contains u = false := by
      cases hb : xs.contains u
      · rfl
      · exact absurd ((contains_mem xs u).mp hb) h
    simp [h, hc]

/-- Closed form of the `write_articles` loop: the loop visits the
input in order, splitting it by ledger membership. -/
theorem processArticles_spec (dir : List Char) (ledger : List (List Char))
    (arts : List Article) :
    processArticles dir ledger arts =
      { written := (arts.filter fun a => !isArticleProcessed ledger a).map (getFilePath dir),
        files := (arts.filter fun a => !isArticleProcessed ledger a).map
          (fun a => (getFilePath dir a, writtenFileContent a)),
        newUrls := (arts.filter fun a => !isArticleProcessed ledger a).map (fun a => a.url),
        skipped := (arts.filter fun a => isArticleProcessed ledger a).length } := by
  induction arts with
  | nil => rfl
  | cons a rest ih =>
    by_cases h : isArticleProcessed ledger a
    · simp [processArticles, ih, h, List.filter_cons]
    · simp [processArticles, ih, h, List.filter_cons]

/-! ## C1 -/

/-- C1: `write_articles` processes items in input order: an article
whose url is in the loaded ledger set is skipped and counted, every
other article is rendered and written and its url staged, and the
returned list is exactly the paths of the files written, in order,
excluding skipped items. -/
theorem write_articles_processes_in_order (dir : List Char)
    (ledger : List (List Char)) (arts : List Article) :
    (writeArticles dir ledger arts).written =
      (arts.filter fun a => !isArticleProcessed ledger a).map (getFilePath dir) ∧
    (writeArticles dir ledger arts).files =
      (arts.filter fun a => !isArticleProcessed ledger a).map
        (fun a => (getFilePath dir a, writtenFileContent a)) ∧
    (writeArticles dir ledger arts).newUrls =
      (arts.filter fun a => !isArticleProcessed ledger a).map (fun a => a.url) ∧
    (writeArticles dir ledger arts).skipped =
      (arts.filter fun a => isArticleProcessed ledger a).length ∧
    (writeArticles dir ledger arts).written =
      ((writeArticles dir ledger arts).files).map Prod.fst := by
  simp [writeArticles, processArticles_spec, List.map_map, Function.comp]

/-! ## C2 -/

/-- C2: the persisted ledger url set is the union of the loaded set
and the urls of the newly written items, and the ledger file is
written exactly when at least one new item was written. -/
theorem write_articles_ledger_union (dir : List Char)
    (ledger : List (List Char)) (arts : List Article) (u : List Char) :
    (∀ m, (writeArticles dir ledger arts).savedUrls = some m →
      (u ∈ m ↔ u ∈ ledger ∨
        u ∈ (arts.filter fun a => !isArticleProcessed ledger a).map (fun a => a.url))) ∧
    ((writeArticles dir ledger arts).savedUrls.isSome ↔
      (writeArticles dir ledger arts).written ≠ []) := by
  constructor
  · intro m hm
    simp only [writeArticles, processArticles_spec] at hm
    by_cases he : ((arts.filter fun a => !isArticleProcessed ledger a).map
        (fun a => a.url)).isEmpty
    · simp [he] at hm
    · simp only [he, if_false] at hm
      rw [← Option.some.inj hm]
      exact mem_setUnion ledger _ u
  · simp only [writeArticles, processArticles_spec]
    by_cases he : ((arts.filter fun a => !isArticleProcessed ledger a).map
        (fun a => a.url)).isEmpty
    · simp_all [List.isEmpty_iff, List.map_eq_nil_iff]
    · simp_all [List.isEmpty_iff, List.map_eq_nil_iff]

/-- Witness for C2: a ledger holding urls A and B, a batch writing a
fresh url C; the persisted set holds exactly A, B and C. -/
theorem write_articles_ledger_union_witness :
    ((writeArticles ("articles".toList) ["https://t.co/a".toList, "https://t.co/b".toList]
        [artC]).savedUrls =
      some ["https://t.co/a".toList, "https://t.co/b".toList, "https://t.co/c".toList]) ∧
    ("https://t.co/c".toList ∈
        ["https://t.co/a".toList, "https://t.co/b".toList, "https://t.co/c".toList] ↔
      "https://t.co/c".toList ∈ ["https://t.co/a".toList, "https://t.co/b".toList] ∨
        "https://t.co/c".toList ∈
          (([artC].filter fun a =>
            !isArticleProcessed ["https://t.co/a".toList, "https://t.co/b".toList] a).map
              (fun a => a.url))) :=
  ⟨by decide,
   (write_articles_ledger_union ("articles".toList)
     ["https://t.co/a".toList, "https://t.co/b".toList] [artC]
     ("https://t.co/c".toList)).1 _ (by decide)⟩

/-! ## C9 -/

/-- C9: the in-memory ledger set is not updated during a batch, so a
batch holding the same fresh url twice writes the file twice and the
returned path list holds that path twice. -/
theorem write_articles_intra_batch_duplicate (dir : List Char)
    (ledger : List (List Char)) (a : Article)
    (h : isArticleProcessed ledger a = false) :
    (writeArticles dir ledger [a, a]).written =
      [getFilePath dir a, getFilePath dir a] ∧
    (writeArticles dir ledger [a, a]).files =
      [(getFilePath dir a, writtenFileContent a),
       (getFilePath dir a, writtenFileContent a)] := by
  simp [writeArticles, processArticles, h]

/-- Witness for C9 at a concrete fresh article against an empty
ledger. -/
theorem write_articles_intra_batch_duplicate_witness :
    (isArticleProcessed [] artC = false) ∧
    (writeArticles ("articles".toList) [] [artC, artC]).written =
      [getFilePath ("articles".toList) artC, getFilePath ("articles".toList) artC] :=
  ⟨by decide,
   (write_articles_intra_batch_duplicate ("articles".toList) [] artC (by decide)).1⟩

/-! ## C6 -/

/-- C6: when RAG setup reports failure the run performs no feed fetch
and no document write, and a fetch or write step occurs only in runs
where the service was detected. -/
theorem rag_gate_blocks_workflow (arts : List Article) :
    mainRun false arts = [RunEvent.ragSetup false] ∧
    (∀ b arts2,
      (RunEvent.feedFetch ∈ mainRun b arts2 ∨
        ∃ n, RunEvent.articlesWrite n ∈ mainRun b arts2) → b = true) := by
  constructor
  · rfl
  · intro b arts2 h
    cases b
    · rcases h with h | ⟨n, h⟩ <;> simp [mainRun] at h
    · rfl

/-- Witness for C6: in a run with the service detected, the fetch
step does occur. -/
theorem rag_gate_blocks_workflow_witness :
    (RunEvent.feedFetch ∈ mainRun true [] ∨
      ∃ n, RunEvent.articlesWrite n ∈ mainRun true []) ∧ true = true :=
  ⟨Or.inl (by decide),
   (rag_gate_blocks_workflow []).2 true [] (Or.inl (by decide))⟩

/-! ## C7 -/

/-- The entry loop of `fetch_rss_feed` keeps the parsed entries in
feed order. -/
theorem collectEntries_eq_filterMap (parseDate : List Char → Option DateTime)
    (stripHtml : List Char → List Char) (es : List FeedEntry) :
    collectEntries parseDate stripHtml es =
      es.filterMap (parseRssEntry parseDate stripHtml) := by
  induction es with
  | nil => rfl
  | cons e rest ih =>
    cases hp : parseRssEntry parseDate stripHtml e <;>
      simp [collectEntries, List.filterMap_cons, hp, ih]

/-- C7: a raised fetch-and-parse error yields the empty article list
(the error never propagates), and otherwise at most `max_articles`
entries are taken, in feed order. -/
theorem fetch_rss_feed_error_empty_and_bounded (cfg : FetchConfig)
    (parseDate : List Char → Option DateTime)
    (stripHtml : List Char → List Char) (msg : List Char) (feed : Feed) :
    fetchRssFeed cfg parseDate stripHtml (Except.error msg) = [] ∧
    fetchRssFeed cfg parseDate stripHtml (Except.ok feed) =
      (feed.entries.take cfg.maxArticles).filterMap
        (parseRssEntry parseDate stripHtml) ∧
    (fetchRssFeed cfg parseDate stripHtml (Except.ok feed)).length ≤
      cfg.maxArticles := by
  refine ⟨rfl, collectEntries_eq_filterMap parseDate stripHtml _, ?_⟩
  show (collectEntries parseDate stripHtml _).length ≤ cfg.maxArticles
  rw [collectEntries_eq_filterMap]
  calc ((feed.entries.take cfg.maxArticles).filterMap
          (parseRssEntry parseDate stripHtml)).length
      ≤ (feed.entries.take cfg.maxArticles).length :=
        List.length_filterMap_le _ _
    _ ≤ cfg.maxArticles := List.length_take_le _ _

/-! ## C8 -/

/-- With the marker files absent at every poll tick, the detection
loop exhausts its wait window and reports false. -/
theorem detectLoop_absent (port pid : Nat → Option (List Char))
    (h : ∀ t, port t = none ∨ pid t = none) :
    ∀ fuel t, detectLoop port pid fuel t = false := by
  intro fuel
  induction fuel with
  | zero => intro t; rfl
  | succ n ih =>
    intro t
    unfold detectLoop
    cases hp : port t <;> cases hq : pid t <;>
      first
        | exact ih (t + 1)
        | (rcases h t with h1 | h1 <;> simp_all)

/-- C8: marker files absent for the whole wait window make
`detect_rag_service` report false (it is a total function, so nothing
is raised), and `setup_rag_connection` then issues no registration
request and leaves `folder_registered` false. -/
theorem detect_timeout_no_registration (env : DetectEnv) (w : Nat)
    (p : List Char) (net : RagNet)
    (h : ∀ t, env.portFileAt t = none ∨ env.pidFileAt t = none) :
    detectRagService env w = false ∧
    setupRagConnection env p net =
      { connected := false, folderRegistered := false,
        events := [RagEvent.detectAttempt false] } ∧
    RagEvent.addFolderRequest ∉ (setupRagConnection env p net).events := by
  have hd : ∀ w', detectRagService env w' = false := by
    intro w'
    unfold detectRagService
    by_cases h1 : env.configExists <;> by_cases h2 : env.appFolderExists <;>
      simp [h1, h2, detectLoop_absent _ _ h]
  have hs : setupRagConnection env p net =
      { connected := false, folderRegistered := false,
        events := [RagEvent.detectAttempt false] } := by
    unfold setupRagConnection
    rw [hd 30]
    simp
  refine ⟨hd w, hs, ?_⟩
  rw [hs]
  simp

/-- Witness for C8 in the environment where the marker files never
appear. -/
theorem detect_timeout_no_registration_witness :
    (∀ t, absentEnv.portFileAt t = none ∨ absentEnv.pidFileAt t = none) ∧
    detectRagService absentEnv 30 = false :=
  ⟨fun _ => Or.inl rfl,
   (detect_timeout_no_registration absentEnv 30 ("articles".toList) quietNet
     (fun _ => Or.inl rfl)).1⟩

/-! ## C10 -/

/-- C10 counterexample: the claim says a set slug is returned
verbatim, but `if self.slug:` is a truthiness test, so the preset
empty slug is ignored and the slug is derived from the title
instead. -/
theorem preset_slug_not_verbatim_cex :
    emptySlugArticle.slug = some [] ∧
    generateSlug emptySlugArticle = "hello".toList ∧
    generateSlug emptySlugArticle ≠ [] := by
  refine ⟨rfl, by decide, by decide⟩

/-- C10 amended: a set, non-empty slug is returned verbatim with no
processing, and the output path is formed directly from it plus the
`.md` suffix. -/
theorem preset_slug_verbatim (a : Article) (s dir : List Char)
    (h : a.slug = some s) (hne : s ≠ []) :
    generateSlug a = s ∧
    getFilePath dir a = dir ++ "/".toList ++ s ++ ".md".toList := by
  have hs : generateSlug a = s := by
    unfold generateSlug
    rw [h]
    simp [hne]
  exact ⟨hs, by simp [getFilePath, hs]⟩

/-- Witness for C10 at a concrete preset slug. -/
theorem preset_slug_verbatim_witness :
    (presetSlugArticle.slug = some ("preset".toList) ∧
      "preset".toList ≠ ([] : List Char)) ∧
    generateSlug presetSlugArticle = "preset".toList :=
  ⟨⟨rfl, by decide⟩,
   (preset_slug_verbatim presetSlugArticle ("preset".toList) ("articles".toList)
     rfl (by decide)).1⟩

/-! ## C4 -/

/-- Every character of a normalised text is 7-bit: the final
`encode('ascii', errors='replace')` pass forces it. -/
theorem mem_normalizeText_ascii (cs : List Char) :
    ∀ c ∈ normalizeText cs, c.toNat ≤ 127 := by
  intro c hc
  unfold normalizeText at hc
  by_cases he : cs.isEmpty
  · simp [he] at hc
  · rw [if_neg he] at hc
    rcases List.mem_map.mp hc with ⟨d, _, rfl⟩
    unfold asciiFallback
    split
    · assumption
    · decide

/-- ASCII characters are decomposition-inert under the modelled NFD. -/
theorem nfdChar_ascii (c : Char) (h : c.toNat ≤ 127) : nfdChar c = [c] := by
  unfold nfdChar
  have hk : ∀ p ∈ nfdTable, 127 < p.fst.toNat := by decide
  have hn : nfdTable.find? (fun p => p.fst = c) = none := by
    rw [List.find?_eq_none]
    intro p hp
    simp only [decide_eq_true_eq]
    intro he
    have := hk p hp
    rw [he] at this
    omega
  rw [hn]

/-- Decomposition is the identity on an all-ASCII string. -/
theorem flatMap_nfdChar_ascii (cs : List Char)
    (h : ∀ c ∈ cs, c.toNat ≤ 127) : cs.flatMap nfdChar = cs := by
  induction cs with
  | nil => rfl
  | cons c rest ih =>
    rw [List.flatMap_cons, nfdChar_ascii c (h c (by simp)),
      ih fun d hd => h d (by simp [hd])]
    rfl

/-- No ASCII character is a combining mark. -/
theorem isMn_ascii (c : Char) (h : c.toNat ≤ 127) : isMn c = false := by
  unfold isMn
  simp only [Bool.and_eq_false_iff, decide_eq_false_iff_not]
  left
  omega

/-- Dropping combining marks is the identity on an all-ASCII string. -/
theorem filter_not_isMn_ascii (cs : List Char)
    (h : ∀ c ∈ cs, c.toNat ≤ 127) : cs.filter (fun c => !(isMn c)) = cs :=
  List.filter_eq_self.mpr fun c hc => by simp [isMn_ascii c (h c hc)]

/-- One `str.replace` pass with a non-ASCII pattern character leaves
an all-ASCII string unchanged. -/
theorem replaceAll_ascii (cs : List Char) (k : Char) (v : List Char)
    (hk : 127 < k.toNat) (h : ∀ c ∈ cs, c.toNat ≤ 127) :
    replaceAll cs k v = cs := by
  induction cs with
  | nil => rfl
  | cons c rest ih =>
    have hck : c ≠ k := by
      intro he
      have := h c (by simp)
      rw [he] at this
      omega
    unfold replaceAll at ih ⊢
    rw [List.flatMap_cons, if_neg hck, ih fun d hd => h d (by simp [hd])]
    rfl

/-- A substitution table whose pattern characters are all non-ASCII
leaves an all-ASCII string unchanged. -/
theorem foldl_replaceAll_ascii (tbl : List (Char × List Char)) (cs : List Char)
    (hk : ∀ p ∈ tbl, 127 < p.fst.toNat) (h : ∀ c ∈ cs, c.toNat ≤ 127) :
    tbl.foldl (fun acc p => replaceAll acc p.fst p.snd) cs = cs := by
  induction tbl with
  | nil => rfl
  | cons p rest ih =>
    rw [List.foldl_cons, replaceAll_ascii cs p.fst p.snd (hk p (by simp)) h]
    exact ih fun q hq => hk q (by simp [hq])

/-- The punctuation substitution pass is the identity on an all-ASCII
string. -/
theorem applySubstitutions_ascii (cs : List Char)
    (h : ∀ c ∈ cs, c.toNat ≤ 127) : applySubstitutions cs = cs :=
  foldl_replaceAll_ascii punctTable cs (by decide) h

/-- The fallback pass is the identity on an all-ASCII string. -/
theorem map_asciiFallback_ascii (cs : List Char)
    (h : ∀ c ∈ cs, c.toNat ≤ 127) : cs.map asciiFallback = cs := by
  induction cs with
  | nil => rfl
  | cons c rest ih =>
    have : asciiFallback c = c := by
      unfold asciiFallback
      rw [if_pos (h c (by simp))]
    rw [List.map_cons, this, ih fun d hd => h d (by simp [hd])]

/-- The whole normaliser is the identity on an all-ASCII string. -/
theorem normalizeText_ascii_id (cs : List Char)
    (h : ∀ c ∈ cs, c.toNat ≤ 127) : normalizeText cs = cs := by
  unfold normalizeText
  by_cases he : cs.isEmpty
  · rw [if_pos he]
    exact (List.isEmpty_iff.mp he).symm
  · rw [if_neg he]
    show ((applySubstitutions
      ((cs.flatMap nfdChar).filter fun c => !(isMn c))).map asciiFallback) = cs
    rw [flatMap_nfdChar_ascii cs h, filter_not_isMn_ascii cs h,
      applySubstitutions_ascii cs h, map_asciiFallback_ascii cs h]

/-- C4: the text normaliser is idempotent on every string. -/
theorem normalize_text_idempotent (cs : List Char) :
    normalizeText (normalizeText cs) = normalizeText cs :=
  normalizeText_ascii_id _ (mem_normalizeText_ascii cs)

/-! ## C3 -/

/-- Characters are equal when their code points are. -/
theorem char_eq_of_toNat_eq {c d : Char} (h : c.toNat = d.toNat) : c = d :=
  Char.ext (UInt32.ext h)

/-- Lowercasing keeps ASCII characters ASCII and leaves no ASCII
uppercase letter. -/
theorem pyLower_ascii (c : Char) (h : c.toNat ≤ 127) :
    (pyLower c).toNat ≤ 127 ∧ isAsciiUpper (pyLower c) = false := by
  unfold pyLower
  by_cases h1 : 65 ≤ c.toNat ∧ c.toNat ≤ 90
  · rw [if_pos h1]
    have ht : (Char.ofNat (c.toNat + 32)).toNat = c.toNat + 32 :=
      toNat_charOfNat _ (by omega)
    constructor
    · rw [ht]; omega
    · unfold isAsciiUpper
      simp only [Bool.and_eq_false_iff, decide_eq_false_iff_not]
      rw [ht]
      omega
  · rw [if_neg h1, if_neg (by omega : ¬(0xC0 ≤ c.toNat ∧ c.toNat ≤ 0xDE ∧ c.toNat ≠ 0xD7))]
    refine ⟨h, ?_⟩
    unfold isAsciiUpper
    simp only [Bool.and_eq_false_iff, decide_eq_false_iff_not]
    omega

/-- Every character surviving separator collapsing is a hyphen or a
non-separator character of the input. -/
theorem mem_collapseSeps (cs : List Char) (b : Bool) (c : Char)
    (hc : c ∈ collapseSeps b cs) :
    c = '-' ∨ (c ∈ cs ∧ isSlugSep c = false) := by
  induction cs generalizing b with
  | nil => simp [collapseSeps] at hc
  | cons d rest ih =>
    unfold collapseSeps at hc
    by_cases hd : isSlugSep d
    · rw [if_pos hd] at hc
      by_cases hb : b
      · rw [if_pos hb] at hc
        rcases ih true hc with h1 | ⟨h1, h2⟩
        · exact Or.inl h1
        · exact Or.inr ⟨List.mem_cons_of_mem d h1, h2⟩
      · rw [if_neg hb] at hc
        rcases List.mem_cons.mp hc with h1 | h1
        · exact Or.inl h1
        · rcases ih true h1 with h2 | ⟨h2, h3⟩
          · exact Or.inl h2
          · exact Or.inr ⟨List.mem_cons_of_mem d h2, h3⟩
    · rw [if_neg hd] at hc
      rcases List.mem_cons.mp hc with h1 | h1
      · subst h1
        exact Or.inr ⟨List.mem_cons_self c rest, Bool.not_eq_true _ ▸ hd⟩
      · rcases ih false h1 with h2 | ⟨h2, h3⟩
        · exact Or.inl h2
        · exact Or.inr ⟨List.mem_cons_of_mem d h2, h3⟩

/-- Stripping outer hyphens only removes characters. -/
theorem stripHyphens_subset (cs : List Char) :
    ∀ c ∈ stripHyphens cs, c ∈ cs := by
  intro c hc
  unfold stripHyphens at hc
  rw [List.mem_reverse] at hc
  have hc2 := (List.dropWhile_sublist _).subset hc
  rw [List.mem_reverse] at hc2
  exact (List.dropWhile_sublist _).subset hc2

/-- Latin-1 letters are not ASCII. -/
theorem isLatin1Letter_ascii (c : Char) (h : c.toNat ≤ 127) :
    isLatin1Letter c = false := by
  cases hb : isLatin1Letter c
  · rfl
  · exfalso
    unfold isLatin1Letter at hb
    simp only [Bool.or_eq_true, Bool.and_eq_true, decide_eq_true_eq] at hb
    omega

/-- C3 counterexample: on a title holding a non-ASCII word character
the derived slug is not ASCII-safe, because the regex `\w` class
retains non-ASCII letters. -/
theorem generate_slug_not_ascii_cex :
    slugFromTitle ("café".toList) = "café".toList ∧
    ¬(∀ c ∈ slugFromTitle ("café".toList), c.toNat ≤ 127) := by
  constructor
  · decide
  · decide

/-- C3 amended: the slug is derived by the stated pipeline, and for
every ASCII title the result is lowercase, at most 100 characters and
made only of ASCII letters, digits, underscores and hyphens (Python
`\w` also admits underscores and, for non-ASCII titles, non-ASCII
letters, so ASCII-safety holds for ASCII titles); the documented
example title still yields exactly `hello-world-a-test`. -/
theorem generate_slug_amended (title : List Char)
    (h : ∀ c ∈ title, c.toNat ≤ 127) :
    (slugFromTitle title).length ≤ 100 ∧
    (∀ c ∈ slugFromTitle title,
      c.toNat ≤ 127 ∧ isAsciiUpper c = false ∧
      (isAsciiAlnum c = true ∨ c = '_' ∨ c = '-')) ∧
    slugFromTitle ("Hello, World! — A Test".toList) =
      "hello-world-a-test".toList := by
  refine ⟨?_, ?_, by decide⟩
  · unfold slugFromTitle
    exact List.length_take_le _ _
  · intro c hc
    simp only [slugFromTitle] at hc
    have hc4 := List.take_subset _ _ hc
    have hc3 := stripHyphens_subset _ c hc4
    rcases mem_collapseSeps _ false c hc3 with hdash | ⟨hc2, hsep⟩
    · subst hdash
      exact ⟨by decide, by decide, Or.inr (Or.inr rfl)⟩
    · rcases List.mem_filter.mp hc2 with ⟨hc1, hkeep⟩
      rcases List.mem_map.mp hc1 with ⟨orig, ho, rfl⟩
      have ha := pyLower_ascii orig (h orig ho)
      refine ⟨ha.1, ha.2, ?_⟩
      unfold isSlugSep at hsep
      simp only [Bool.or_eq_false_iff, decide_eq_false_iff_not] at hsep
      simp only [Bool.or_eq_true, decide_eq_true_eq] at hkeep
      rcases hkeep with (hw | hs) | hdash
      · unfold isWordChar at hw
        simp only [Bool.or_eq_true, decide_eq_true_eq] at hw
        rcases hw with (ha2 | h95) | hl
        · exact Or.inl ha2
        · exact Or.inr (Or.inl (char_eq_of_toNat_eq h95))
        · rw [isLatin1Letter_ascii _ ha.1] at hl
          exact absurd hl (by decide)
      · rw [hsep.2] at hs
        exact absurd hs (by decide)
      · exact absurd hdash hsep.1

/-- Witness for the amended C3 at a concrete ASCII title. -/
theorem generate_slug_amended_witness :
    (∀ c ∈ ("Hello World".toList), c.toNat ≤ 127) ∧
    (slugFromTitle ("Hello World".toList)).length ≤ 100 :=
  ⟨by decide, (generate_slug_amended ("Hello World".toList) (by decide)).1⟩

/-! ## C5 -/

/-- The placeholder line is not the content heading. -/
theorem ch_ne_placeholder : contentHeading ≠ placeholderLine := by decide

/-- The frontmatter block never contains the content heading: every
line of it starts with a character other than the hash sign. -/
theorem ch_not_mem_frontmatter (a : Article) :
    contentHeading ∉ frontmatterLines a := by
  intro hmem
  unfold frontmatterLines at hmem
  cases ha : a.author <;> cases hp : a.published <;> cases hcat : a.categories <;>
    simp [ha, hp, hcat, contentHeading] at hmem

/-- The title block never contains the content heading: the H1 line
has a space at index one. -/
theorem ch_not_mem_title (a : Article) : contentHeading ∉ titleLines a := by
  intro hmem
  unfold titleLines at hmem
  simp [contentHeading] at hmem

/-- The metadata block never contains the content heading: the joined
line starts with an asterisk. -/
theorem ch_not_mem_meta (a : Article) : contentHeading ∉ metaLines a := by
  intro hmem
  unfold metaLines at hmem
  cases ha : a.author <;> cases hp : a.published <;>
    simp [ha, hp, contentHeading, List.intercalate] at hmem

/-- The categories block never contains the content heading. -/
theorem ch_not_mem_category (a : Article) :
    contentHeading ∉ categoryLines a := by
  intro hmem
  unfold categoryLines at hmem
  cases hcat : a.categories <;>
    simp [hcat, contentHeading] at hmem

/-- The source block never contains the content heading. -/
theorem ch_not_mem_source (a : Article) : contentHeading ∉ sourceLines a := by
  intro hmem
  unfold sourceLines at hmem
  simp [contentHeading] at hmem

/-- If the content heading occurs in the summary block then the
normalised summary text is literally that heading. -/
theorem ch_mem_summary (a : Article) (h : contentHeading ∈ summaryLines a) :
    a.summary.map normalizeText = some contentHeading := by
  unfold summaryLines at h
  cases hs : a.summary
  · rw [hs] at h
    simp at h
  · rw [hs] at h
    simp only [List.mem_cons, List.not_mem_nil, or_false] at h
    rcases h with h | h | h | h
    · exact absurd h (by decide)
    · exact absurd h (by decide)
    · rw [h]
      rfl
    · exact absurd h (by decide)

/-- C5: a failed secondary content fetch returns the item with every
field exactly as the feed gave it, and an item with no body content is
still rendered, its body ending in the placeholder sentence instead of
an Article Content section (the heading line can occur only as the
verbatim text of the summary itself). -/
theorem fetch_failure_graceful (cfg : FetchConfig) (a : Article)
    (err : List Char) :
    fetchArticleContent cfg a (Except.error err) = a ∧
    (a.content = none →
      placeholderLine ∈ generateMarkdownLines a ∧
      (generateMarkdownLines a).getLast? = some placeholderLine ∧
      (contentHeading ∈ generateMarkdownLines a →
        a.summary.map normalizeText = some contentHeading)) := by
  constructor
  · unfold fetchArticleContent
    by_cases hf : cfg.fetchFullContent <;> simp [hf]
  · intro hc
    have hcl : contentLines a = [placeholderLine] := by
      unfold contentLines
      rw [hc]
    refine ⟨?_, ?_, ?_⟩
    · simp [generateMarkdownLines, hcl]
    · simp [generateMarkdownLines, hcl, List.getLast?_append]
    · intro hmem
      simp only [generateMarkdownLines, hcl, List.mem_append,
        List.mem_singleton] at hmem
      rcases hmem with (((((h | h) | h) | h) | h) | h) | h
      · exact absurd h (ch_not_mem_frontmatter a)
      · exact absurd h (ch_not_mem_title a)
      · exact absurd h (ch_not_mem_meta a)
      · exact absurd h (ch_not_mem_category a)
      · exact absurd h (ch_not_mem_source a)
      · exact ch_mem_summary a h
      · exact absurd h ch_ne_placeholder

/-- Witness for C5 at a concrete article with no body content. -/
theorem fetch_failure_graceful_witness :
    artC.content = none ∧ placeholderLine ∈ generateMarkdownLines artC :=
  ⟨rfl, ((fetch_failure_graceful cfgFixture artC []).2 rfl).1⟩

end TempoNews
